import Mathlib

/-!
Verification development for the News-Fetcher-CLI repository.

Shallow embedding conventions:
* Calendar dates are modelled as integers counting days since 2026-01-01
  (a Thursday), so the Python `date.weekday()` of day `d` is `(d + 3) % 7`
  with 0 = Monday.  UTC instants are integers counting minutes since
  2026-01-01 00:00 UTC.
* The unbounded `while` loops of the trading-day walkers are embedded with an
  explicit fuel counter; the termination theorems prove that fuel 7 always
  suffices, which is exactly the finitely-many-steps claim of the source.
* Library effects (Selenium, `requests`, BeautifulSoup, `urlparse`,
  `dateutil.parser`) are supplied by explicit environment records; everything
  the repository's own code computes from those inputs is embedded directly.
-/

namespace NewsFetcher

/-! ## Calendar model (src/modules/utils/market_utils.py, class MarketCalendar) -/

/-- Python `date.weekday()` for a day index (days since 2026-01-01, a
Thursday): 0 = Monday, …, 6 = Sunday. -/
def weekday (d : ℤ) : ℤ := (d + 3) % 7

/-- `MarketCalendar.HOLIDAYS_2026` as day indices from 2026-01-01:
Jan 1, Jan 19, Feb 16, Apr 3, May 25, Jun 19, Jul 3, Sep 7, Nov 26, Dec 25. -/
def HOLIDAYS_2026 : List ℤ := [0, 18, 46, 92, 144, 169, 183, 249, 329, 358]

/-- `MarketCalendar.is_trading_day`: false on Saturday/Sunday and on the
fixed 2026 holiday set, true otherwise. -/
def is_trading_day (d : ℤ) : Bool :=
  if 5 ≤ weekday d then false
  else if d ∈ HOLIDAYS_2026 then false
  else true

/-- Fuel-indexed embedding of the forward day-by-day walk
(`while not is_trading_day(curr): curr += 1`); `none` means fuel ran out. -/
def walkFwd : ℕ → ℤ → Option ℤ
  | 0, _ => none
  | n + 1, d => if is_trading_day d then some d else walkFwd n (d + 1)

/-- Fuel-indexed embedding of the backward day-by-day walk
(`while not is_trading_day(curr): curr -= 1`); `none` means fuel ran out. -/
def walkBwd : ℕ → ℤ → Option ℤ
  | 0, _ => none
  | n + 1, d => if is_trading_day d then some d else walkBwd n (d - 1)

/-- `MarketCalendar.get_prev_trading_day`: starts at `dt - 1` and walks
backward to a trading day. -/
def get_prev_trading_day (d : ℤ) : Option ℤ := walkBwd 7 (d - 1)

/-- `MarketCalendar.get_next_trading_day`: starts at `dt + 1` and walks
forward to a trading day. -/
def get_next_trading_day (d : ℤ) : Option ℤ := walkFwd 7 (d + 1)

/-- `MarketCalendar.get_current_or_prev_trading_day`: starts at `dt` itself
and walks backward to a trading day. -/
def get_current_or_prev_trading_day (d : ℤ) : Option ℤ := walkBwd 7 d

/-- Modelled from the spec: `get_current_or_next_trading_day` is absent from
src/modules/utils/market_utils.py (the unit tests in src/tests/test_core.py
call it); per the spec's walker description it walks day-by-day forward,
starting at the given date, skipping non-trading days. -/
def get_current_or_next_trading_day (d : ℤ) : Option ℤ := walkFwd 7 d

/-- The session anchor instant, 01:00 UTC on day `d`, in minutes. -/
def anchorMin (d : ℤ) : ℤ := 1440 * d + 60

/-- Modelled from the spec: `MarketCalendar.resolve_session_for_date` is
absent from src/modules/utils/market_utils.py (src/main.py and the unit
tests call it).  Per the spec: the manual date snaps forward to the next
trading day's session when it lands on a non-trading day; the session of
trading day `T` starts at the anchor hour on the day after
`prev_trading_day(T)` and its end is capped at `now_utc` (the uncapped end
being the anchor on the day after `T`, as pinned by the unit tests).
Returns `(target_date, lookback_start, lookback_end)`. -/
def resolve_session_for_date (manual_date now_utc : ℤ) : Option (ℤ × ℤ × ℤ) :=
  match get_current_or_next_trading_day manual_date with
  | none => none
  | some target =>
    match get_prev_trading_day target with
    | none => none
    | some prevtd =>
      some (target, anchorMin (prevtd + 1), min (anchorMin (target + 1)) now_utc)

/-! ### Calendar lemmas -/

/-- No 2026 NYSE holiday falls on a Tuesday, so every day congruent to
Tuesday (day index `≡ 5 [ZMOD 7]`) is a trading day. -/
theorem tuesday_is_trading (d : ℤ) (hd : d % 7 = 5) : is_trading_day d = true := by
  have hw : ¬ (5 ≤ weekday d) := by
    unfold weekday; omega
  have hh : d ∉ HOLIDAYS_2026 := by
    intro hmem
    simp only [HOLIDAYS_2026, List.mem_cons, List.not_mem_nil, or_false] at hmem
    omega
  simp [is_trading_day, hw, hh]

/-- Soundness of the forward walk: a successful walk returns the first
trading day at or after the start. -/
theorem walkFwd_sound (f : ℕ) (d r : ℤ) (h : walkFwd f d = some r) :
    is_trading_day r = true ∧ d ≤ r ∧ r < d + f ∧
      ∀ x, d ≤ x → x < r → is_trading_day x = false := by
  induction f generalizing d with
  | zero => simp [walkFwd] at h
  | succ n ih =>
    rw [walkFwd] at h
    by_cases htd : is_trading_day d = true
    · simp [htd] at h
      subst h
      exact ⟨htd, le_refl _, by omega, fun x hx1 hx2 => by omega⟩
    · simp [htd] at h
      obtain ⟨h1, h2, h3, h4⟩ := ih (d + 1) h
      refine ⟨h1, by omega, by push_cast at h3 ⊢; omega, fun x hx1 hx2 => ?_⟩
      rcases eq_or_lt_of_le hx1 with heq | hlt
      · subst heq; simpa using htd
      · exact h4 x (by omega) hx2

/-- Completeness of the forward walk: if the first trading day at or after
`d` is within the fuel budget, the walk finds it. -/
theorem walkFwd_complete (f : ℕ) (d r : ℤ)
    (hr : is_trading_day r = true) (h1 : d ≤ r) (h2 : r < d + f)
    (h3 : ∀ x, d ≤ x → x < r → is_trading_day x = false) :
    walkFwd f d = some r := by
  induction f generalizing d with
  | zero => omega
  | succ n ih =>
    rw [walkFwd]
    rcases eq_or_lt_of_le h1 with heq | hlt
    · subst heq; simp [hr]
    · have hd : is_trading_day d = false := h3 d (le_refl _) hlt
      simp [hd]
      exact ih (d + 1) (by omega) (by omega)
        (fun x hx1 hx2 => h3 x (by omega) hx2)

/-- The forward walk with fuel 7 always succeeds: some day among
`d, …, d + 6` is a Tuesday, hence a trading day. -/
theorem walkFwd_total (d : ℤ) :
    ∃ r, walkFwd 7 d = some r ∧ is_trading_day r = true := by
  have hwin : ∃ r, d ≤ r ∧ r < d + 7 ∧ is_trading_day r = true := by
    refine ⟨d + (5 - d) % 7, by omega, by omega, tuesday_is_trading _ (by omega)⟩
  -- find the least trading day in the window, then apply completeness
  have hstep : ∀ f : ℕ, ∀ d' : ℤ,
      (∃ r, d' ≤ r ∧ r < d' + f ∧ is_trading_day r = true) →
      ∃ r, walkFwd f d' = some r := by
    intro f
    induction f with
    | zero => rintro d' ⟨r, h1, h2, _⟩; omega
    | succ n ih =>
      rintro d' ⟨r, h1, h2, h3⟩
      rw [walkFwd]
      by_cases htd : is_trading_day d' = true
      · exact ⟨d', by simp [htd]⟩
      · have hne : r ≠ d' := fun heq => htd (heq ▸ h3)
        have ⟨r', hr'⟩ := ih (d' + 1) ⟨r, by omega, by omega, h3⟩
        exact ⟨r', by simp [htd]; exact hr'⟩
  obtain ⟨r, hr⟩ := hstep 7 d hwin
  exact ⟨r, hr, (walkFwd_sound 7 d r hr).1⟩

/-- Soundness of the backward walk: a successful walk returns the last
trading day at or before the start. -/
theorem walkBwd_sound (f : ℕ) (d r : ℤ) (h : walkBwd f d = some r) :
    is_trading_day r = true ∧ r ≤ d ∧ d - f < r ∧
      ∀ x, r < x → x ≤ d → is_trading_day x = false := by
  induction f generalizing d with
  | zero => simp [walkBwd] at h
  | succ n ih =>
    rw [walkBwd] at h
    by_cases htd : is_trading_day d = true
    · simp [htd] at h
      subst h
      exact ⟨htd, le_refl _, by omega, fun x hx1 hx2 => by omega⟩
    · simp [htd] at h
      obtain ⟨h1, h2, h3, h4⟩ := ih (d - 1) h
      refine ⟨h1, by omega, by push_cast at h3 ⊢; omega, fun x hx1 hx2 => ?_⟩
      rcases eq_or_lt_of_le hx2 with heq | hlt
      · subst heq; simpa using htd
      · exact h4 x hx1 (by omega)

/-- The backward walk with fuel 7 always succeeds. -/
theorem walkBwd_total (d : ℤ) :
    ∃ r, walkBwd 7 d = some r ∧ is_trading_day r = true := by
  have hstep : ∀ f : ℕ, ∀ d' : ℤ,
      (∃ r, r ≤ d' ∧ d' - f < r ∧ is_trading_day r = true) →
      ∃ r, walkBwd f d' = some r := by
    intro f
    induction f with
    | zero => rintro d' ⟨r, h1, h2, _⟩; omega
    | succ n ih =>
      rintro d' ⟨r, h1, h2, h3⟩
      rw [walkBwd]
      by_cases htd : is_trading_day d' = true
      · exact ⟨d', by simp [htd]⟩
      · have hne : r ≠ d' := fun heq => htd (heq ▸ h3)
        have ⟨r', hr'⟩ := ih (d' - 1) ⟨r, by omega, by omega, h3⟩
        exact ⟨r', by simp [htd]; exact hr'⟩
  have hwin : ∃ r, r ≤ d ∧ d - 7 < r ∧ is_trading_day r = true := by
    refine ⟨d - (d - 5) % 7, by omega, by omega, tuesday_is_trading _ (by omega)⟩
  obtain ⟨r, hr⟩ := hstep 7 d hwin
  exact ⟨r, hr, (walkBwd_sound 7 d r hr).1⟩

/-- The property C2 asserts of the composed walk: `r` is the last trading
day at or before `b`. -/
def lastTradingAtOrBefore (r b : ℤ) : Prop :=
  is_trading_day r = true ∧ r ≤ b ∧ ∀ x, r < x → x ≤ b → is_trading_day x = false

/-- If every day of `[d1, d2]` is non-trading, the forward walk from `d1`
and from `d2` find the same trading day. -/
theorem currOrNext_eq_of_stretch (d1 d2 : ℤ) (hle : d1 ≤ d2)
    (h : ∀ x, d1 ≤ x → x ≤ d2 → is_trading_day x = false) :
    get_current_or_next_trading_day d1 = get_current_or_next_trading_day d2 := by
  obtain ⟨r, hr, hrt⟩ := walkFwd_total d1
  obtain ⟨_, hge, hlt, hall⟩ := walkFwd_sound 7 d1 r hr
  have hd2r : d2 < r := by
    by_contra hc
    push_neg at hc
    have hfalse := h r (by omega) hc
    rw [hfalse] at hrt
    cases hrt
  have h2 : walkFwd 7 d2 = some r :=
    walkFwd_complete 7 d2 r hrt (by omega) (by omega)
      (fun x hx1 hx2 => hall x (by omega) hx2)
  unfold get_current_or_next_trading_day
  rw [hr, h2]

/-! ## Claim theorems: calendar -/

/-- C1: for every UTC instant `now` and any two dates lying in one unbroken
stretch of consecutive non-trading days, `resolve_session_for_date` returns
the identical `target_date` and the identical `lookback_start`, and each
returned window end is capped at `now`. -/
theorem resolve_session_same_stretch (now d1 d2 : ℤ)
    (hstretch : ∀ x, min d1 d2 ≤ x → x ≤ max d1 d2 → is_trading_day x = false) :
    ∃ t s e1 e2,
      resolve_session_for_date d1 now = some (t, s, e1) ∧
      resolve_session_for_date d2 now = some (t, s, e2) ∧
      e1 ≤ now ∧ e2 ≤ now := by
  have key : ∀ a b : ℤ, a ≤ b →
      (∀ x, min a b ≤ x → x ≤ max a b → is_trading_day x = false) →
      ∃ t s e1 e2,
        resolve_session_for_date a now = some (t, s, e1) ∧
        resolve_session_for_date b now = some (t, s, e2) ∧
        e1 ≤ now ∧ e2 ≤ now := by
    intro a b hab hrange
    have hstr : ∀ x, a ≤ x → x ≤ b → is_trading_day x = false := fun x h1 h2 =>
      hrange x (le_trans (min_le_left a b) h1) (le_trans h2 (le_max_right a b))
    have heq := currOrNext_eq_of_stretch a b hab hstr
    obtain ⟨t, ht, htt⟩ := walkFwd_total a
    have hta : get_current_or_next_trading_day a = some t := ht
    have htb : get_current_or_next_trading_day b = some t := by rw [← heq]; exact hta
    obtain ⟨p, hp, hpt⟩ := walkBwd_total (t - 1)
    have hpt' : get_prev_trading_day t = some p := hp
    refine ⟨t, anchorMin (p + 1), min (anchorMin (t + 1)) now,
      min (anchorMin (t + 1)) now, ?_, ?_, min_le_right _ _, min_le_right _ _⟩
    · simp [resolve_session_for_date, hta, hpt']
    · simp [resolve_session_for_date, htb, hpt']
  rcases le_total d1 d2 with hle | hle
  · exact key d1 d2 hle hstretch
  · obtain ⟨t, s, e1, e2, h1, h2, h3, h4⟩ := key d2 d1 hle
      (by rw [min_comm, max_comm]; exact hstretch)
    exact ⟨t, s, e2, e1, h2, h1, h4, h3⟩

/-- Witness for C1 at the Presidents' Day 2026 stretch: Sunday Feb 15
(day 45) and the Monday holiday Feb 16 (day 46) resolve identically, with
`now` = minute 70000 (Feb 18, 2026 ≈ 14:40 UTC). -/
theorem resolve_session_same_stretch_witness :
    (∀ x : ℤ, min 45 46 ≤ x → x ≤ max 45 46 → is_trading_day x = false) ∧
    (∃ t s e1 e2,
      resolve_session_for_date 45 70000 = some (t, s, e1) ∧
      resolve_session_for_date 46 70000 = some (t, s, e2) ∧
      e1 ≤ 70000 ∧ e2 ≤ 70000) := by
  have h : ∀ x : ℤ, min (45 : ℤ) 46 ≤ x → x ≤ max (45 : ℤ) 46 →
      is_trading_day x = false := by
    intro x h1 h2
    have hx : x = 45 ∨ x = 46 := by
      simp only [min_def, max_def] at h1 h2
      split at h1 <;> split at h2 <;> omega
    rcases hx with rfl | rfl <;> decide
  exact ⟨h, resolve_session_same_stretch 70000 45 46 h⟩

/-- C2 counterexample: at `d = 48` (Wednesday 2026-02-18),
`get_next_trading_day d = 49` and `get_prev_trading_day 49 = 48`, but 48 is
not the last trading day at or before 49, because 49 itself is a trading
day in the gap `(48, 49]`. -/
theorem prev_next_not_last_at_or_before :
    get_next_trading_day 48 = some 49 ∧
    get_prev_trading_day 49 = some 48 ∧
    ¬ lastTradingAtOrBefore 48 49 := by
  refine ⟨by decide, by decide, ?_⟩
  intro h
  have h49 := h.2.2 49 (by norm_num) (le_refl 49)
  have : is_trading_day 49 = true := by decide
  rw [this] at h49
  cases h49

/-- C2 (amended): `get_prev_trading_day (get_next_trading_day d)` is the
last trading day strictly before `get_next_trading_day d`: the composed
result is a trading day and no trading day lies strictly between it and
`get_next_trading_day d`. -/
theorem prev_next_trading_day (d : ℤ) :
    ∃ n p, get_next_trading_day d = some n ∧ get_prev_trading_day n = some p ∧
      is_trading_day p = true ∧ p < n ∧
      ∀ x, p < x → x < n → is_trading_day x = false := by
  obtain ⟨n, hn, hnt⟩ := walkFwd_total (d + 1)
  obtain ⟨p, hp, hpt⟩ := walkBwd_total (n - 1)
  obtain ⟨_, hp2, _, hp4⟩ := walkBwd_sound 7 (n - 1) p hp
  exact ⟨n, p, hn, hp, hpt, by omega, fun x hx1 hx2 => hp4 x hx1 (by omega)⟩

/-- C3: all four day-walking functions terminate on every input date: the
day-by-day loop reaches a trading day after finitely many steps (the fuel
bound 7 is never exhausted) and returns it. -/
theorem calendar_walkers_terminate (d : ℤ) :
    (∃ r, get_prev_trading_day d = some r ∧ is_trading_day r = true) ∧
    (∃ r, get_next_trading_day d = some r ∧ is_trading_day r = true) ∧
    (∃ r, get_current_or_prev_trading_day d = some r ∧ is_trading_day r = true) ∧
    (∃ r, get_current_or_next_trading_day d = some r ∧ is_trading_day r = true) :=
  ⟨walkBwd_total (d - 1), walkFwd_total (d + 1), walkBwd_total d, walkFwd_total d⟩

/-! ## String primitives

Executable embeddings of the Python string operations used by the source
(`in`, `.upper()`, `.lower()`, `.strip()`, `.endswith`, `.rsplit(s,1)[0]`,
`.replace`, `.split(s)[0]`), written over `List Char` so the kernel can
evaluate them. -/

/-- `pat` occurs as a contiguous run inside the character list. -/
def isInfixList (pat : List Char) : List Char → Bool
  | [] => pat.isEmpty
  | c :: rest => pat.isPrefixOf (c :: rest) || isInfixList pat rest

/-- Python `pat in hay` for strings (substring containment). -/
def containsSub (hay pat : String) : Bool := isInfixList pat.data hay.data

/-- Python `s.upper()` (ASCII). -/
def upperStr (s : String) : String := String.mk (s.data.map Char.toUpper)

/-- Python `s.lower()` (ASCII). -/
def lowerStr (s : String) : String := String.mk (s.data.map Char.toLower)

/-- Python `s.strip()`. -/
def trimStr (s : String) : String :=
  String.mk (((s.data.dropWhile Char.isWhitespace).reverse.dropWhile
    Char.isWhitespace).reverse)

/-- Python `t.endswith(s)`. -/
def endsWithStr (t s : String) : Bool := s.data.isSuffixOf t.data

/-- Drop the last `n` characters. -/
def dropRightStr (t : String) (n : ℕ) : String :=
  String.mk (t.data.take (t.data.length - n))

/-- Left-to-right non-overlapping replacement, with fuel. -/
def replaceAux (pat rep : List Char) : List Char → ℕ → List Char
  | cs, 0 => cs
  | cs, n + 1 =>
    match cs with
    | [] => []
    | c :: rest =>
      if pat.isPrefixOf (c :: rest) ∧ pat ≠ [] then
        rep ++ replaceAux pat rep ((c :: rest).drop pat.length) n
      else c :: replaceAux pat rep rest n

/-- Python `s.replace(pat, rep)`. -/
def replaceStr (s pat rep : String) : String :=
  String.mk (replaceAux pat.data rep.data s.data s.data.length)

/-- Characters before the first occurrence of `pat` (Python
`s.split(pat)[0]` when `pat` occurs). -/
def takeBefore (pat : List Char) : List Char → List Char
  | [] => []
  | c :: rest => if pat.isPrefixOf (c :: rest) then [] else c :: takeBefore pat rest

/-- Python `s.split(pat)[0]`. -/
def splitHead (s pat : String) : String :=
  if containsSub s pat then String.mk (takeBefore pat.data s.data) else s

/-! ## market_utils module constants and pure helpers -/

/-- `BLOCKED_SOURCES` from src/modules/utils/market_utils.py. -/
def BLOCKED_SOURCES : List String :=
  ["MOTLEY FOOL", "SIMPLY WALL ST", "BENZINGA", "ZACKS", "GLOBENEWSWIRE"]

/-- `PREMIUM_SOURCES` from src/modules/utils/market_utils.py. -/
def PREMIUM_SOURCES : List String :=
  ["BLOOMBERG", "REUTERS", "CNBC", "WSJ", "WALL STREET JOURNAL",
   "FINANCIAL TIMES", "BARRON\x27S"]

/-- `is_premium_source(title, url)`: a premium keyword occurs in the
upper-cased concatenation of title and url. -/
def is_premium_source (title url : String) : Bool :=
  PREMIUM_SOURCES.any fun src => containsSub (upperStr (title ++ " " ++ url)) src

/-- The suffix list of `normalize_title`. -/
def TITLE_SUFFIXES : List String :=
  [" - Yahoo Finance", " - Bloomberg", " - Reuters", " - CNBC",
   " - MarketWatch", " - The Wall Street Journal"]

/-- One pass of the suffix loop body of `normalize_title`:
`if t.endswith(s): t = t.rsplit(s, 1)[0].strip()`. -/
def stripSuffix (t s : String) : String :=
  if endsWithStr t s then trimStr (dropRightStr t s.data.length) else t

/-- `normalize_title(title)`: empty for `None`/empty input, else trims and
strips each known source suffix in turn.  `none` models Python `None`. -/
def normalize_title : Option String → String
  | none => ""
  | some title =>
    if title = "" then "" else TITLE_SUFFIXES.foldl stripSuffix (trimStr title)

/-- `decode_google_news_url`: legacy pass-through. -/
def decode_google_news_url (u : String) : String := u

/-! ## Claim theorem: C4 (normalize_title) -/

/-- C4: `normalize_title "Breaking News - Yahoo Finance" = "Breaking News"`;
a title whose trimmed form ends in none of the known suffixes is returned
unchanged apart from whitespace trimming; `None` and empty input yield the
empty string. -/
theorem normalize_title_spec :
    normalize_title (some "Breaking News - Yahoo Finance") = "Breaking News" ∧
    (∀ t : String, (∀ s ∈ TITLE_SUFFIXES, endsWithStr (trimStr t) s = false) →
      normalize_title (some t) = trimStr t) ∧
    normalize_title none = "" ∧ normalize_title (some "") = "" := by
  refine ⟨by decide, ?_, rfl, rfl⟩
  intro t ht
  by_cases h0 : t = ""
  · subst h0; rfl
  · have h1 := ht " - Yahoo Finance" (by simp [TITLE_SUFFIXES])
    have h2 := ht " - Bloomberg" (by simp [TITLE_SUFFIXES])
    have h3 := ht " - Reuters" (by simp [TITLE_SUFFIXES])
    have h4 := ht " - CNBC" (by simp [TITLE_SUFFIXES])
    have h5 := ht " - MarketWatch" (by simp [TITLE_SUFFIXES])
    have h6 := ht " - The Wall Street Journal" (by simp [TITLE_SUFFIXES])
    simp [normalize_title, h0, TITLE_SUFFIXES, stripSuffix, h1, h2, h3, h4, h5, h6]

/-- Witness for C4's universally-quantified clause at a concrete title with
leading/trailing whitespace and no known suffix. -/
theorem normalize_title_spec_witness :
    normalize_title (some "  Fed Holds Rates Steady ") = trimStr "  Fed Holds Rates Steady " :=
  normalize_title_spec.2.1 "  Fed Holds Rates Steady " (by decide)

/-! ## Scan progress model (src/modules/utils/scan_progress.py) -/

/-- The persisted `ScanProgressState` record (the JSON state file). -/
structure ScanState where
  active_scan : Bool
  scan_type : Option String
  target_date : Option String
  start_time : Option String
  total_targets : List String
  completed_targets : List String
  current_target : Option String
deriving DecidableEq

/-- The default state `_ensure_file` / `load_state` write on first run. -/
def initState : ScanState :=
  { active_scan := false, scan_type := none, target_date := none,
    start_time := none, total_targets := [], completed_targets := [],
    current_target := none }

/-- `ScanProgressManager.start_new_scan`: overwrite with a fresh active
state.  `now_str` stands for `str(datetime.datetime.now())`. -/
def start_new_scan (ty : String) (target_list : List String)
    (date_str : Option String) (now_str : String) (_s : ScanState) : ScanState :=
  { active_scan := true, scan_type := some ty, target_date := date_str,
    start_time := some now_str, total_targets := target_list,
    completed_targets := [], current_target := none }

/-- `ScanProgressManager.mark_target_start`: no-op when inactive. -/
def mark_target_start (target : String) (s : ScanState) : ScanState :=
  if s.active_scan then { s with current_target := some target } else s

/-- `ScanProgressManager.mark_target_complete`: no-op when inactive;
idempotent append to `completed_targets`; clears `current_target`. -/
def mark_target_complete (target : String) (s : ScanState) : ScanState :=
  if s.active_scan then
    { s with
      completed_targets :=
        if s.completed_targets.contains target then s.completed_targets
        else s.completed_targets ++ [target],
      current_target := none }
  else s

/-- `ScanProgressManager.finish_scan`. -/
def finish_scan (s : ScanState) : ScanState :=
  { s with active_scan := false, current_target := none }

/-- The record `get_resume_info` returns in its non-null case. -/
structure ResumeInfo where
  stype : Option String
  target_date : Option String
  remaining : List String
  completed_count : ℕ
  total_count : ℕ
  last_target : Option String
deriving DecidableEq

/-- `remaining = [t for t in total if t not in done]` (order preserved
from `total_targets`). -/
def remainingTargets (s : ScanState) : List String :=
  s.total_targets.filter (fun t => !s.completed_targets.contains t)

/-- `ScanProgressManager.get_resume_info`: returns the optional resume
payload and the (possibly auto-finished) stored state. -/
def get_resume_info (s : ScanState) : Option ResumeInfo × ScanState :=
  if s.active_scan then
    if (remainingTargets s).isEmpty then (none, finish_scan s)
    else
      (some { stype := s.scan_type, target_date := s.target_date,
              remaining := remainingTargets s,
              completed_count := s.completed_targets.length,
              total_count := s.total_targets.length,
              last_target := s.current_target }, s)
  else (none, s)

/-- Calls of the manager's public mutating surface, for reachability. -/
inductive ScanOp where
  | start (ty : String) (targets : List String) (date_str : Option String) (now_str : String)
  | markStart (target : String)
  | markComplete (target : String)
  | resume
  | finish

/-- State effect of one manager call. -/
def applyOp : ScanOp → ScanState → ScanState
  | .start ty ts ds ns, s => start_new_scan ty ts ds ns s
  | .markStart t, s => mark_target_start t s
  | .markComplete t, s => mark_target_complete t s
  | .resume, s => (get_resume_info s).2
  | .finish, s => finish_scan s

/-- State after a finite sequence of manager calls. -/
def runOps (ops : List ScanOp) (s : ScanState) : ScanState :=
  ops.foldl (fun st op => applyOp op st) s

/-- The C5 invariant: every completed target is in `total_targets`. -/
def completedWithinTotal (s : ScanState) : Prop :=
  ∀ t ∈ s.completed_targets, t ∈ s.total_targets

/-- The guard the amended C5 imposes on a call: during an active scan,
`mark_target_complete` is only passed a member of `total_targets`. -/
def opGuard (s : ScanState) : ScanOp → Prop
  | .markComplete t => s.active_scan = true → t ∈ s.total_targets
  | _ => True

/-- All calls of a sequence respect the guard at their call sites. -/
def SafeOps : ScanState → List ScanOp → Prop
  | _, [] => True
  | s, op :: rest => opGuard s op ∧ SafeOps (applyOp op s) rest

/-! ## Claim theorems: scan progress -/

/-- C5 counterexample: starting a scan with `total_targets = ["A"]` and then
calling `mark_target_complete "B"` (an arbitrary string argument) yields a
reachable persisted state whose `completed_targets` contains `"B"` while
`total_targets` does not: `completed_targets ⊆ total_targets` fails. -/
theorem completed_subset_counterexample :
    "B" ∈ (runOps [.start "MACRO" ["A"] none "t0", .markComplete "B"] initState).completed_targets ∧
    "B" ∉ (runOps [.start "MACRO" ["A"] none "t0", .markComplete "B"] initState).total_targets := by
  decide

/-- C5 (amended): `completed_targets ⊆ total_targets` is preserved by every
finite call sequence in which `mark_target_complete` is only invoked, during
an active scan, with a member of the current `total_targets`. -/
theorem completed_subset_invariant (ops : List ScanOp) (s : ScanState)
    (h0 : completedWithinTotal s) (hsafe : SafeOps s ops) :
    completedWithinTotal (runOps ops s) := by
  induction ops generalizing s with
  | nil => exact h0
  | cons op rest ih =>
    obtain ⟨hg, hrest⟩ := hsafe
    refine ih (applyOp op s) ?_ hrest
    cases op with
    | start ty ts ds ns => intro t ht; simp [applyOp, start_new_scan] at ht
    | markStart t =>
      intro x hx
      simp only [applyOp, mark_target_start] at hx ⊢
      by_cases hact : s.active_scan <;> simp [hact] at hx ⊢ <;> exact h0 x hx
    | markComplete t =>
      intro x hx
      simp only [applyOp, mark_target_complete] at hx ⊢
      by_cases hact : s.active_scan
      · rw [if_pos hact] at hx ⊢
        dsimp only at hx ⊢
        by_cases hc : s.completed_targets.contains t
        · rw [if_pos hc] at hx
          exact h0 x hx
        · rw [if_neg hc] at hx
          rcases List.mem_append.1 hx with hx | hx
          · exact h0 x hx
          · rw [List.mem_singleton.1 hx]
            exact hg hact
      · rw [if_neg hact] at hx ⊢
        exact h0 x hx
    | resume =>
      intro x hx
      simp only [applyOp, get_resume_info] at hx ⊢
      by_cases hact : s.active_scan
      · by_cases he : (remainingTargets s).isEmpty <;>
          simp [hact, he, finish_scan] at hx ⊢ <;> exact h0 x hx
      · simp [hact] at hx ⊢
        exact h0 x hx
    | finish => intro x hx; exact h0 x hx

/-- Witness for the amended C5 at a concrete safe call sequence. -/
theorem completed_subset_invariant_witness :
    completedWithinTotal
      (runOps [.start "MACRO" ["A", "B"] none "t0", .markComplete "A"] initState) := by
  apply completed_subset_invariant
  · intro t ht; simp [initState] at ht
  · exact ⟨trivial, fun _ => by decide, trivial⟩

/-- C6: `get_resume_info` returns null when inactive; when active with every
target completed it auto-finishes (flipping `active` off) and returns null;
otherwise it returns the order-preserving remaining list together with the
completed count, total count and the possibly-stuck `current_target`. -/
theorem get_resume_info_spec (s : ScanState) :
    (s.active_scan = false → get_resume_info s = (none, s)) ∧
    (s.active_scan = true → (∀ t ∈ s.total_targets, t ∈ s.completed_targets) →
      get_resume_info s = (none, finish_scan s) ∧
      (finish_scan s).active_scan = false) ∧
    (s.active_scan = true → (∃ t ∈ s.total_targets, t ∉ s.completed_targets) →
      get_resume_info s =
        (some { stype := s.scan_type, target_date := s.target_date,
                remaining := remainingTargets s,
                completed_count := s.completed_targets.length,
                total_count := s.total_targets.length,
                last_target := s.current_target }, s)) := by
  refine ⟨fun h => ?_, fun h hall => ?_, fun h hex => ?_⟩
  · simp [get_resume_info, h]
  · have hrem : remainingTargets s = [] := by
      simp only [remainingTargets, List.filter_eq_nil_iff]
      intro t ht
      simp [hall t ht]
    constructor
    · simp [get_resume_info, h, hrem]
    · rfl
  · obtain ⟨t, ht, hnc⟩ := hex
    have hrem : remainingTargets s ≠ [] := by
      intro hnil
      have : t ∈ remainingTargets s := by
        simp only [remainingTargets, List.mem_filter]
        exact ⟨ht, by simpa using hnc⟩
      rw [hnil] at this
      simp at this
    have hne : (remainingTargets s).isEmpty = false := by
      cases hr : remainingTargets s with
      | nil => exact absurd hr hrem
      | cons a l => simp [List.isEmpty]
    simp [get_resume_info, h, hne]

/-- Witness for C6 at a concrete active, partially-completed state. -/
theorem get_resume_info_spec_witness :
    get_resume_info
      { active_scan := true, scan_type := some "MACRO", target_date := some "2026-02-18",
        start_time := some "t0", total_targets := ["A", "B", "C"],
        completed_targets := ["A"], current_target := some "B" } =
      (some { stype := some "MACRO", target_date := some "2026-02-18",
              remaining := ["B", "C"], completed_count := 1, total_count := 3,
              last_target := some "B" },
       { active_scan := true, scan_type := some "MACRO", target_date := some "2026-02-18",
         start_time := some "t0", total_targets := ["A", "B", "C"],
         completed_targets := ["A"], current_target := some "B" }) := by
  have h := (get_resume_info_spec
    { active_scan := true, scan_type := some "MACRO", target_date := some "2026-02-18",
      start_time := some "t0", total_targets := ["A", "B", "C"],
      completed_targets := ["A"], current_target := some "B" }).2.2 rfl
    ⟨"B", by decide, by decide⟩
  rw [h]
  decide

/-- C10: `finish_scan` clears `active_scan` and `current_target` and leaves
every other field of the persisted state unchanged. -/
theorem finish_scan_frame (s : ScanState) :
    (finish_scan s).active_scan = false ∧
    (finish_scan s).current_target = none ∧
    (finish_scan s).scan_type = s.scan_type ∧
    (finish_scan s).target_date = s.target_date ∧
    (finish_scan s).start_time = s.start_time ∧
    (finish_scan s).total_targets = s.total_targets ∧
    (finish_scan s).completed_targets = s.completed_targets :=
  ⟨rfl, rfl, rfl, rfl, rfl, rfl, rfl⟩

/-! ## Browser fetch model (src/modules/utils/market_utils.py, fetch_yahoo_selenium)

Selenium/BeautifulSoup effects are oracle inputs in `FetchEnv`; every branch
decision and every value the function itself builds from them is embedded
from the source.  Python exceptions are the `Except` error channel. -/

/-- The exception classes `fetch_yahoo_selenium` can surface, plus the
generic `Exception` carrying its `str(e)` message. -/
inductive PyExc where
  | deadDriver (msg : String)
  | blocked (msg : String)
  | other (msg : String)
deriving DecidableEq

/-- The two dictionary shapes the fetch returns: headline-only placeholders
(`{"text": …, "publisher": …}`) and full articles
(`{"content": …, "publisher": …}`). -/
inductive FetchPayload where
  | headline (text : String) (publisher : String)
  | article (content : List String) (publisher : String)
deriving DecidableEq

/-- The allowed US Yahoo hosts. -/
def ALLOWED_YAHOO : List String := ["finance.yahoo.com", "www.finance.yahoo.com"]

/-- `PRIORITY_SOURCES` (quality highlight list). -/
def PRIORITY_SOURCES : List String := ["REUTERS", "BLOOMBERG", "CNBC"]

/-- `fatal_triggers` of the outer exception handler. -/
def FATAL_TRIGGERS : List String :=
  ["timed out", "timeout", "connection refused", "connection reset",
   "httpconnectionpool", "maxretryerror", "invalid session"]

/-- Oracle for the library effects of one `fetch_yahoo_selenium` call. -/
structure FetchEnv where
  /-- `urlparse(url).netloc.lower()` of the input url. -/
  domain : String
  /-- Python truthiness of the driver handle. -/
  driver_present : Bool
  /-- outcome of `driver.get(url)` (error carries `str(te)`). -/
  get_result : Except String Unit
  /-- whether reading `driver.current_url` succeeds in the dead-check. -/
  alive_check : Bool
  /-- per firewall-loop iteration: the lowered netloc of `driver.current_url`,
  or the `str(e)` of a raised read error. -/
  loop_urls : List (Except String String)
  /-- lowered netloc at the final verification, or a raised read error. -/
  final_url : Except String String
  /-- whether a content div (or `soup.body`) was found. -/
  has_body : Bool
  /-- `get_text()` of the collected `p`/`li`/`h2`/`h3` tags. -/
  tag_texts : List String
  /-- publisher after the JSON-LD/logo/byline strategy chain
  (`"Yahoo Finance"` when every strategy failed). -/
  publisher0 : String
deriving Inhabited

/-- The firewall loop body over the (up to 10) observed hosts: break on an
allowed US Yahoo host, raise `BlockedContentException` on any other Yahoo
host, propagate read errors, otherwise keep polling. -/
def loopCheck : List (Except String String) → Except PyExc Unit
  | [] => .ok ()
  | u :: rest =>
    match u with
    | .error msg => .error (.other msg)
    | .ok d =>
      if containsSub d "yahoo.com" then
        if ALLOWED_YAHOO.contains d then .ok ()
        else .error (.blocked ("Redirected to Non-US Domain: " ++ d))
      else loopCheck rest

/-- The 10 iterations of `for i in range(10)`, padded with a benign host. -/
def loopUrls10 (env : FetchEnv) : List (Except String String) :=
  (List.range 10).map fun i => env.loop_urls.getD i (.ok "")

/-- Paragraph filtering: strip each tag text, keep lines longer than 20
characters that contain neither boilerplate phrase. -/
def cleanLines (tag_texts : List String) : List String :=
  (tag_texts.map trimStr).filter fun t =>
    decide (20 < t.data.length) && !containsSub (lowerStr t) "click here" &&
      !containsSub (lowerStr t) "read more"

/-- Publisher cleanup: drop `"By "`, strip, cut at `" min read"`, and fall
back to `"Yahoo Finance"` when implausibly long or short. -/
def cleanupPublisher (p0 : String) : String :=
  let p1 := trimStr (replaceStr p0 "By " "")
  let p2 := if containsSub p1 " min read" then trimStr (splitHead p1 " min read") else p1
  if 50 < p2.data.length ∨ p2.data.length < 2 then "Yahoo Finance" else p2

/-- Priority tagging: prepend a star at the first priority-list match. -/
def priorityTag (publisher : String) : String :=
  match PRIORITY_SOURCES.find? (fun g => containsSub (upperStr publisher) g) with
  | some _ => "⭐ " ++ publisher
  | none => publisher

/-- The body of the outermost `try` of `fetch_yahoo_selenium`. -/
def fetch_inner (env : FetchEnv) (url : String) : Except PyExc (Option FetchPayload) :=
  if containsSub env.domain "yahoo.com" && !ALLOWED_YAHOO.contains env.domain then
    .error (.blocked ("Non-US Domain: " ++ env.domain))
  else if !env.driver_present then .ok none
  else
    match env.get_result with
    | .error temsg =>
      let err := lowerStr temsg
      if containsSub err "timeout" || containsSub err "timed out" then
        .ok (some (.headline ("[Content Timeout] Link: " ++ url) "Unknown (Timeout)"))
      else if !env.alive_check then .error (.deadDriver "Driver Died during Fetch")
      else .ok (some (.headline ("[Fetch Failed: " ++ err ++ "] Link: " ++ url) "Unknown (Error)"))
    | .ok _ =>
      match loopCheck (loopUrls10 env) with
      | .error e => .error e
      | .ok _ =>
        match env.final_url with
        | .error msg => .error (.other msg)
        | .ok dfin =>
          if containsSub dfin "yahoo.com" && !ALLOWED_YAHOO.contains dfin then
            .error (.blocked ("Final URL is Non-US Domain: " ++ dfin))
          else if containsSub dfin "google.com" then
            .ok (some (.headline ("[Stuck on Google] Link: " ++ url) "Google RSS"))
          else if !env.has_body then
            .ok (some (.headline ("[No Content Found] Link: " ++ url) "Unknown"))
          else
            let clean_text := cleanLines env.tag_texts
            let publisher := cleanupPublisher env.publisher0
            if BLOCKED_SOURCES.contains (upperStr publisher) then
              .error (.blocked ("Blocked Source: " ++ publisher))
            else
              let publisher2 := priorityTag publisher
              if clean_text.isEmpty then .ok none
              else .ok (some (.article clean_text publisher2))

/-- `fetch_yahoo_selenium` including its outer exception handler: the two
custom exceptions are re-raised, any other exception is classified by the
fatal-trigger keywords into `DeadDriverException("Browser Died")` or a
`None` return. -/
def fetch_yahoo_selenium (env : FetchEnv) (url : String) :
    Except PyExc (Option FetchPayload) :=
  match fetch_inner env url with
  | .ok v => .ok v
  | .error (.deadDriver m) => .error (.deadDriver m)
  | .error (.blocked m) => .error (.blocked m)
  | .error (.other msg) =>
    if FATAL_TRIGGERS.any (fun t => containsSub (lowerStr msg) t) then
      .error (.deadDriver "Browser Died")
    else .ok none

/-! ## Claim theorem: C7 (fetch failure taxonomy) -/

/-- C7: a timeout-class failure of `driver.get` is a soft failure — the
fetch returns the headline-only placeholder instead of propagating — and
the only exceptions `fetch_yahoo_selenium` ever raises to callers are
`DeadDriverException` and `BlockedContentException`. -/
theorem fetch_failure_taxonomy :
    (∀ (env : FetchEnv) (url msg : String),
      (containsSub env.domain "yahoo.com" && !ALLOWED_YAHOO.contains env.domain) = false →
      env.driver_present = true →
      env.get_result = .error msg →
      (containsSub (lowerStr msg) "timeout" || containsSub (lowerStr msg) "timed out") = true →
      fetch_yahoo_selenium env url =
        .ok (some (.headline ("[Content Timeout] Link: " ++ url) "Unknown (Timeout)"))) ∧
    (∀ (env : FetchEnv) (url : String) (e : PyExc),
      fetch_yahoo_selenium env url = .error e →
      (∃ m, e = .deadDriver m) ∨ (∃ m, e = .blocked m)) := by
  constructor
  · intro env url msg hdom hdrv hget htime
    unfold fetch_yahoo_selenium fetch_inner
    rw [hget]
    simp only [hdom, hdrv, htime]
    simp
  · intro env url e h
    unfold fetch_yahoo_selenium at h
    rcases hi : fetch_inner env url with exc | v <;> rw [hi] at h
    · cases exc with
      | deadDriver m =>
        dsimp only at h
        injection h with h
        exact Or.inl ⟨m, h.symm⟩
      | blocked m =>
        dsimp only at h
        injection h with h
        exact Or.inr ⟨m, h.symm⟩
      | other msg =>
        dsimp only at h
        split at h
        · injection h with h
          exact Or.inl ⟨"Browser Died", h.symm⟩
        · cases h
    · cases h

/-- Witness for C7 at a concrete environment whose `driver.get` raises a
timeout-class error. -/
theorem fetch_failure_taxonomy_witness :
    fetch_yahoo_selenium
      { domain := "finance.yahoo.com", driver_present := true,
        get_result := .error "Page Load Timeout", alive_check := true,
        loop_urls := [], final_url := .ok "finance.yahoo.com", has_body := true,
        tag_texts := [], publisher0 := "Yahoo Finance" }
      "https://finance.yahoo.com/news/a" =
      .ok (some (.headline "[Content Timeout] Link: https://finance.yahoo.com/news/a"
        "Unknown (Timeout)")) :=
  fetch_failure_taxonomy.1 _ "https://finance.yahoo.com/news/a" "Page Load Timeout"
    (by decide) rfl rfl (by decide)

/-! ## Macro scan engine model (src/modules/engines/macro_engine.py)

`run_macro_scan` is embedded with its feed/browser/DB effects as oracle
inputs: each RSS fetch outcome is attached to its target, each candidate
carries the oracle data of its own browser interactions, and the DB is an
`article_exists` oracle plus an append-only insert log.  The static
`MACRO_RSS_TARGETS` list plus any injected event feeds appear as the
environment's target list.  The `strftime` strings of the source are
represented by the parsed publication instant itself. -/

/-- The persisted article record the engines build (`report_item`). -/
structure Report where
  title : String
  url : String
  content : List String
  publisher : String
  published_at : ℤ
  source_domain : String
  category : String
deriving DecidableEq

/-- Result of `dateutil.parser.parse(pub_date_str)`: the instant in minutes
and its calendar date (`pub_dt.date()`) as a day index. -/
structure PubTime where
  dt : ℤ
  date : ℤ
deriving DecidableEq

/-- Browser oracle data for one candidate: the fetch environment of each
retry attempt, whether a driver relaunch would succeed, the pre-flight
`urlparse` netloc of the clean url (`none` = parse raised, swallowed), and
the netloc read in the redundant final check (`none` = read raised,
swallowed). -/
structure CandEnv where
  fetch_envs : List FetchEnv
  relaunch_ok : Bool
  preflight_domain : Option String
  final_check : Option String

/-- One RSS `<item>`: title, link and parse outcome, plus its browser
oracle. -/
structure FeedItem where
  title : String
  link : String
  pub : Option PubTime
  cand : CandEnv

/-- One scan target with its feed-fetch outcome (error = the caught
`requests`/parse exception). -/
structure RssTarget where
  name : String
  category : String
  feed : Except String (List FeedItem)

/-- Engine-level oracles: driver launch, the (static + injected) target
list, DB presence, the `article_exists` oracle, the titles loaded for the
3-day dedup window when `existing_titles is None`, and
`str(datetime.datetime.now())`. -/
structure MacroEnv where
  launch_ok : Bool
  rss_targets : List RssTarget
  db_present : Bool
  article_exists : String → String → Option ℕ
  seen3day : List String
  now_str : String

/-- The explicit parameters of `run_macro_scan` relevant to its logic;
`target_date_str` stands for `target_date.strftime("%Y-%m-%d")`. -/
structure MacroParams where
  target_date : ℤ
  target_date_str : String
  max_pages : ℕ
  cache_map : Option (List (String × Report))
  existing_titles : Option (List String)
  resume_targets : Option (List String)
  target_subset : Option (List String)
  lookback_start : Option ℤ

/-- Mutable engine state: the dedup dictionaries, the result list, the DB
insert log, and the scan-progress state file. -/
structure EngState where
  seen_titles : List String
  seen_urls : List String
  found_reports : List Report
  inserted : List (Report × String)
  pm : ScanState
deriving DecidableEq

/-- `foreign_markers` of the instant foreign-titles check. -/
def FOREIGN_MARKERS : List String :=
  ["YAHOO FINANCE UK", "YAHOO! FINANCE CANADA", "YAHOO FINANCE AUSTRALIA",
   "YAHOO FINANCE SINGAPORE"]

/-- `cache_map[clean_url]` lookup. -/
def lookupCache (cm : List (String × Report)) (u : String) : Option Report :=
  (cm.find? (fun p => p.1 == u)).map Prod.snd

/-- The placeholder HIDDEN record the engine persists for blocked
candidates. -/
def blockedReport (title url : String) (reason : List String) (dt : ℤ) : Report :=
  { title := title, url := url, content := reason, publisher := "BLOCKED",
    published_at := dt, source_domain := "finance.yahoo.com", category := "HIDDEN" }

/-- Benign default fetch environment (pads a candidate's attempt stream). -/
def defaultFetchEnv : FetchEnv :=
  { domain := "", driver_present := false, get_result := .ok (), alive_check := true,
    loop_urls := [], final_url := .ok "", has_body := true, tag_texts := [],
    publisher0 := "Yahoo Finance" }

/-- Outcome of the candidate retry loop. -/
inductive RetryOut where
  | got (p : FetchPayload)
  | nothing
  | blockedStop (msg : String)
deriving DecidableEq

/-- The `for attempt in range(max_attempts)` retry loop: break on content,
restart-and-retry on `DeadDriverException` (abort when the relaunch fails),
break on `BlockedContentException`, log-and-retry on anything else. -/
def runRetry (url : String) (relaunch_ok : Bool) : ℕ → List FetchEnv → RetryOut
  | 0, _ => .nothing
  | n + 1, fenvs =>
    match fetch_yahoo_selenium (fenvs.headD defaultFetchEnv) url with
    | .ok (some p) => .got p
    | .ok none => runRetry url relaunch_ok n fenvs.tail
    | .error (.deadDriver _) =>
      if relaunch_ok then runRetry url relaunch_ok n fenvs.tail else .nothing
    | .error (.blocked m) => .blockedStop m
    | .error (.other _) => runRetry url relaunch_ok n fenvs.tail

/-- The per-candidate body of the macro item loop: the filter/dedup cascade,
the tiered fetch, and persistence, in source order.  A skip (`continue`)
returns the state unchanged. -/
def processItem (env : MacroEnv) (pars : MacroParams) (category_tag : String)
    (st : EngState) (it : FeedItem) : EngState :=
  match it.pub with
  | none => st
  | some pub =>
    if (match pars.lookback_start with
        | some ls => decide (pub.dt < ls)
        | none => decide (pub.date ≠ pars.target_date)) then st
    else
      let real_url := decode_google_news_url it.link
      let clean_url := splitHead real_url "?"
      let found_db_id : Option ℕ :=
        if env.db_present then
          match env.article_exists real_url it.title with
          | some i => some i
          | none => env.article_exists clean_url it.title
        else none
      if found_db_id.isSome then st
      else
        let norm_title := lowerStr (normalize_title (some it.title))
        if st.seen_titles.contains norm_title then st
        else
          let t_low := lowerStr it.title
          if containsSub t_low "motley fool" || containsSub t_low "zacks" ||
              containsSub t_low "benzinga" then
            if env.db_present then
              { st with
                inserted := st.inserted ++
                  [(blockedReport it.title clean_url ["BLOCKED TITLE KEYWORD"] pub.dt, "HIDDEN")],
                seen_titles := st.seen_titles ++ [norm_title] }
            else st
          else
            let upper_title := upperStr it.title
            if FOREIGN_MARKERS.any (fun m => containsSub upper_title m) then st
            else if BLOCKED_SOURCES.any (fun b =>
                containsSub upper_title b &&
                !(category_tag == "EVENT_WATCH" && b == "ZACKS")) then st
            else if (match it.cand.preflight_domain with
                | some dom => containsSub dom "yahoo.com" && !ALLOWED_YAHOO.contains dom
                | none => false) then st
            else
              let u_low := lowerStr clean_url
              if containsSub u_low "motley-fool" || containsSub u_low "zacks" ||
                  containsSub u_low "benzinga" then
                if env.db_present then
                  { st with
                    inserted := st.inserted ++
                      [(blockedReport it.title clean_url ["BLOCKED URL KEYWORD"] pub.dt, "HIDDEN")],
                    seen_titles := st.seen_titles ++ [norm_title] }
                else st
              else if st.seen_urls.contains clean_url then st
              else
                match pars.cache_map.bind (fun cm => lookupCache cm clean_url) with
                | some cached => { st with found_reports := st.found_reports ++ [cached] }
                | none =>
                  let max_attempts := if is_premium_source it.title real_url then 2 else 1
                  match runRetry real_url it.cand.relaunch_ok max_attempts it.cand.fetch_envs with
                  | .blockedStop _ =>
                    if env.db_present then
                      { st with
                        inserted := st.inserted ++
                          [(blockedReport it.title clean_url ["BLOCKED SOURCE"] pub.dt, "HIDDEN")],
                        seen_titles := st.seen_titles ++ [norm_title] }
                    else st
                  | .nothing => st
                  | .got p =>
                    if (match it.cand.final_check with
                        | some fd => containsSub fd "yahoo.com" && !ALLOWED_YAHOO.contains fd
                        | none => false) then st
                    else
                      let cp : List String × String :=
                        match p with
                        | .headline _ pubName => ([], pubName)
                        | .article c pubName => (c, pubName)
                      let report : Report :=
                        { title := it.title, url := real_url, content := cp.1,
                          publisher := cp.2, published_at := pub.dt,
                          source_domain := "finance.yahoo.com", category := category_tag }
                      let st1 :=
                        if env.db_present then
                          { st with inserted := st.inserted ++ [(report, category_tag)] }
                        else st
                      { st1 with
                        found_reports := st1.found_reports ++ [report],
                        seen_urls := st1.seen_urls ++ [clean_url],
                        seen_titles := st1.seen_titles ++ [norm_title, it.title] }

/-- The item loop with its depth limit (`item_limit = max_pages * 20`). -/
def itemsLoop (env : MacroEnv) (pars : MacroParams) (category_tag : String) :
    List FeedItem → ℕ → EngState → EngState
  | [], _, st => st
  | it :: rest, count, st =>
    if pars.max_pages * 20 ≤ count then st
    else itemsLoop env pars category_tag rest (count + 1)
      (processItem env pars category_tag st it)

/-- The target loop: progress tracking around each target, feed errors
caught and logged, the loop always advancing. -/
def targetLoop (env : MacroEnv) (pars : MacroParams) :
    List RssTarget → EngState → EngState
  | [], st => st
  | tg :: rest, st =>
    let st1 := { st with pm := mark_target_start tg.name st.pm }
    let st2 :=
      match tg.feed with
      | .error _ => st1
      | .ok items =>
        if items.isEmpty then st1 else itemsLoop env pars tg.category items 0 st1
    targetLoop env pars rest { st2 with pm := mark_target_complete tg.name st2.pm }

/-- The two Python return shapes of the engines: the legacy plain list and
the structured `{"articles": …, "errors": …}` record. -/
inductive PyRet where
  | list (xs : List Report)
  | record (articles : List Report) (errors : List String)
deriving DecidableEq

/-- `run_macro_scan`: driver launch, dedup-context seeding, subset and
resume filtering, progress init, the target loop, and the `finally` block
(`finish_scan` only when the iterated target list was non-empty).  Both
`return` sites of the source return a plain list. -/
def run_macro_scan (env : MacroEnv) (pars : MacroParams) (pm0 : ScanState) :
    PyRet × EngState :=
  let seen0 :=
    match pars.existing_titles with
    | none => if env.db_present then env.seen3day else []
    | some ts => ts
  let urls0 := match pars.cache_map with | some cm => cm.map Prod.fst | none => []
  let st0 : EngState :=
    { seen_titles := seen0, seen_urls := urls0, found_reports := [],
      inserted := [], pm := pm0 }
  if !env.launch_ok then (.list [], st0)
  else
    let targets1 :=
      match pars.target_subset with
      | some sub =>
        if sub.isEmpty then env.rss_targets
        else env.rss_targets.filter (fun t => sub.contains t.name)
      | none => env.rss_targets
    let target_names := targets1.map RssTarget.name
    let pm1 :=
      if pm0.active_scan then pm0
      else start_new_scan "MACRO" target_names (some pars.target_date_str) env.now_str pm0
    let targets2 :=
      match pars.resume_targets with
      | some rs =>
        if rs.isEmpty then targets1
        else targets1.filter (fun t => rs.contains t.name)
      | none => targets1
    let stF := targetLoop env pars targets2 { st0 with pm := pm1 }
    let pmF := if targets2.isEmpty then stF.pm else finish_scan stF.pm
    (.list stF.found_reports, { stF with pm := pmF })

/-! ## Claim theorems: scan engine (C8, C9) -/

/-- A candidate whose title contains the blocked-publisher keyword
`GLOBENEWSWIRE`, under the ordinary `FED` category. -/
def itemC8 : FeedItem :=
  { title := "Markets Rally, GLOBENEWSWIRE Says",
    link := "https://finance.yahoo.com/news/rally",
    pub := some { dt := 0, date := 0 },
    cand := { fetch_envs := [], relaunch_ok := true,
              preflight_domain := some "finance.yahoo.com", final_check := none } }

/-- Engine environment delivering `itemC8` from a single feed, with the DB
available. -/
def envC8 : MacroEnv :=
  { launch_ok := true,
    rss_targets := [{ name := "Federal Reserve", category := "FED", feed := .ok [itemC8] }],
    db_present := true, article_exists := fun _ _ => none, seen3day := [],
    now_str := "t0" }

/-- Parameters matching `itemC8`'s publication date. -/
def parsC8 : MacroParams :=
  { target_date := 0, target_date_str := "2026-01-01", max_pages := 5,
    cache_map := none, existing_titles := some [], resume_targets := none,
    target_subset := none, lookback_start := none }

/-- C8 counterexample: the candidate's title matches the blocked-publisher
list, the engine excludes it from the returned articles — but it persists
nothing: no HIDDEN record is inserted, refuting "persists that candidate as
a HIDDEN-category record". -/
theorem blocked_title_not_persisted_hidden :
    BLOCKED_SOURCES.any (fun b => containsSub (upperStr itemC8.title) b) = true ∧
    (run_macro_scan envC8 parsC8 initState).1 = .list [] ∧
    (run_macro_scan envC8 parsC8 initState).2.inserted = [] := by
  decide

/-- C8 (amended): a candidate whose title contains a blocked-publisher
keyword and reaches the blocklist scan (passing the earlier window, DB,
local-cache, fast-keyword and foreign checks) is skipped silently: the
engine state — returned articles, dedup indices, DB insert log and progress
state — is unchanged, so the candidate is excluded but not persisted.
Under the `EVENT_WATCH` category the `ZACKS` keyword is exempted at this
check (but a zacks-containing title never reaches it, being caught and
persisted HIDDEN by the preceding fast keyword filter). -/
theorem blocked_title_skipped_silently
    (env : MacroEnv) (pars : MacroParams) (category_tag : String) (st : EngState)
    (it : FeedItem) (pub : PubTime)
    (hpub : it.pub = some pub)
    (hwin : (match pars.lookback_start with
             | some ls => decide (pub.dt < ls)
             | none => decide (pub.date ≠ pars.target_date)) = false)
    (hdb : (if env.db_present then
              (match env.article_exists (decode_google_news_url it.link) it.title with
               | some i => some i
               | none =>
                 env.article_exists (splitHead (decode_google_news_url it.link) "?") it.title)
            else none) = none)
    (hseen : st.seen_titles.contains (lowerStr (normalize_title (some it.title))) = false)
    (hfast : (containsSub (lowerStr it.title) "motley fool" ||
              containsSub (lowerStr it.title) "zacks" ||
              containsSub (lowerStr it.title) "benzinga") = false)
    (hforeign : FOREIGN_MARKERS.any (fun m => containsSub (upperStr it.title) m) = false)
    (hblocked : BLOCKED_SOURCES.any (fun b =>
        containsSub (upperStr it.title) b &&
        !(category_tag == "EVENT_WATCH" && b == "ZACKS")) = true) :
    processItem env pars category_tag st it = st := by
  unfold processItem
  rw [hpub]
  simp only [hwin, hdb, hseen, hfast, hforeign, hblocked]
  simp

/-- Witness for the amended C8 at a concrete blocked candidate. -/
theorem blocked_title_skipped_silently_witness :
    processItem envC8 parsC8 "TREASURY"
      { seen_titles := [], seen_urls := [], found_reports := [], inserted := [],
        pm := initState }
      { title := "Bond Yields Fall - Simply Wall St Analysis",
        link := "https://finance.yahoo.com/news/yields",
        pub := some { dt := 30, date := 0 },
        cand := { fetch_envs := [], relaunch_ok := true, preflight_domain := none,
                  final_check := none } } =
      { seen_titles := [], seen_urls := [], found_reports := [], inserted := [],
        pm := initState } :=
  blocked_title_skipped_silently envC8 parsC8 "TREASURY" _ _ { dt := 30, date := 0 }
    rfl (by decide) (by decide) (by decide) (by decide) (by decide) (by decide)

/-- Engine environment for the C9 return-shape check. -/
def envC9 : MacroEnv :=
  { launch_ok := true, rss_targets := [], db_present := false,
    article_exists := fun _ _ => none, seen3day := [], now_str := "t0" }

/-- Parameters for the C9 return-shape check. -/
def parsC9 : MacroParams :=
  { target_date := 0, target_date_str := "2026-01-01", max_pages := 5,
    cache_map := none, existing_titles := none, resume_targets := none,
    target_subset := none, lookback_start := none }

/-- C9 counterexample: a concrete invocation of the macro engine returns
the legacy plain list, not an `{articles, errors}` record — and no errors
list exists in the returned value at all. -/
theorem engine_returns_list_not_record :
    (run_macro_scan envC9 parsC9 initState).1 = .list [] ∧
    ∀ arts errs, (run_macro_scan envC9 parsC9 initState).1 ≠ .record arts errs := by
  have h1 : (run_macro_scan envC9 parsC9 initState).1 = .list [] := by decide
  exact ⟨h1, fun arts errs h => by rw [h1] at h; cases h⟩

/-- C9 (amended): every invocation of the macro engine returns a plain list
of accepted articles (the legacy shape); per-target feed failures are
caught inside the target loop (the loop advances and the run still returns
the list), and no error-string list is part of the return value. -/
theorem run_macro_scan_returns_list (env : MacroEnv) (pars : MacroParams)
    (pm0 : ScanState) :
    ∃ xs, (run_macro_scan env pars pm0).1 = .list xs := by
  unfold run_macro_scan
  rcases hL : env.launch_ok <;> simp [hL]

end NewsFetcher
